import Mathlib

/-!
Shallow embedding of `src/utils/timers.ts` (rollup's timing / tracing
instrumentation layer).

Modelling conventions:
* JS plain objects used as string-keyed maps (`timers`, `spans`, attribute
  bags) are embedded as association lists `List (String × α)` with
  insertion-order preserving update (`updateA`) and set (`setA`).
* The ambient time/memory capabilities (`getStartTime`, `getElapsedTime`,
  `getMemory` selected by `setTimeHelpers`) are environmental: every
  operation that samples them takes the sampled value as an explicit
  argument, and `getElapsedTime` is passed as a function of the stored
  start timestamp.  Times and memory sizes are embedded as `Int`.
* A JS exception is modelled by `Option`: `none` is a thrown error.
  In particular `'  '.repeat(level - 4)` throws a `RangeError` for
  `level < 4` (reachable at `level = 0`), and `undefined.setAttribute`
  in `timeEndTraceImpl` throws a `TypeError`.
* `undefined` field values (`startMemory`, `startTime` placeholders) are
  modelled by `Option.none`.
-/

namespace RollupTimers

/-- Association-list update of every entry whose key matches, modelling a
field assignment `obj[key].f = v` on a JS object value. -/
def updateA (ts : List (String × α)) (l : String) (f : α → α) : List (String × α) :=
  ts.map fun p => if p.1 = l then (p.1, f p.2) else p

/-- Association-list assignment `obj[key] = v`: replaces the value in place
if the key exists, otherwise appends (JS objects preserve insertion order). -/
def setA (ts : List (String × α)) (l : String) (v : α) : List (String × α) :=
  if (List.lookup l ts).isSome then updateA ts l (fun _ => v) else ts ++ [(l, v)]

/-- Model of `obj.hasOwnProperty(key)`. -/
def hasOwnProp (ts : List (String × α)) (l : String) : Bool :=
  (List.lookup l ts).isSome

/-- Model of the opaque `StartTime = [number, number]` pair. -/
abbrev StartTime := Int × Int

/-- Model of the `Timer` interface.  `startMemory` and `startTime` are
initialised to `undefined as never` in the source, modelled as `none`. -/
structure Timer where
  memory : Int
  startMemory : Option Int
  startTime : Option StartTime
  time : Int
  totalMemory : Int
deriving DecidableEq

/-- Model of the `Timers` registry object. -/
abbrev Timers := List (String × Timer)

/-- Model of a `'s'.repeat(n)` string repetition with a non-negative count. -/
def strRepeat (s : String) : Nat → String
  | 0 => ""
  | n + 1 => s ++ strRepeat s n

/-- Model of `getPersistedLabel`.  The `default` switch branch computes
`'  '.repeat(level - 4)`; for `level < 4` (reachable at `level = 0`) the
repeat count is negative and `String.prototype.repeat` throws a
`RangeError`, modelled as `none`. -/
def getPersistedLabel (label : String) (level : Nat) : Option String :=
  if level = 1 then some ("# " ++ label)
  else if level = 2 then some ("## " ++ label)
  else if level = 3 then some label
  else if level < 4 then none
  else some (strRepeat "  " (level - 4) ++ "- " ++ label)

/-- The fresh record created by `timeStartImpl` for an unknown label
(`startMemory` and `startTime` are `undefined as never` at creation). -/
def freshTimer : Timer :=
  { memory := 0, startMemory := none, startTime := none, time := 0, totalMemory := 0 }

/-- Body of `timeStartImpl` after the label has been persisted:
create the record if absent, then store the current start timestamp and
start memory sample.  `currentMemory` is the `getMemory()` sample and
`st` the `getStartTime()` sample taken during this call. -/
def timeStartAt (timers : Timers) (label : String) (currentMemory : Int) (st : StartTime) : Timers :=
  let timers := if hasOwnProp timers label then timers else setA timers label freshTimer
  let timers := updateA timers label fun t => { t with startTime := some st }
  updateA timers label fun t => { t with startMemory := some currentMemory }

/-- Body of `timeEndImpl` after the label has been persisted: no-op for an
unknown label, otherwise accumulate elapsed time, update the peak memory,
and accumulate the memory delta.  `currentMemory` is the `getMemory()`
sample and `elapsed` models `getElapsedTime` applied to the stored start
timestamp.  A record only exists after a `timeStartAt`, which always sets
`startMemory`, so the `getD 0` default is unreachable. -/
def timeEndAt (timers : Timers) (label : String) (currentMemory : Int)
    (elapsed : Option StartTime → Int) : Timers :=
  if hasOwnProp timers label then
    let timers := updateA timers label fun t => { t with time := t.time + elapsed t.startTime }
    let timers := updateA timers label fun t => { t with totalMemory := max t.totalMemory currentMemory }
    updateA timers label fun t => { t with memory := t.memory + (currentMemory - t.startMemory.getD 0) }
  else timers

/-- Model of `timeStartImpl(label, level = 3)`; the call throws (is `none`)
exactly when `getPersistedLabel` does. -/
def timeStartImpl (timers : Timers) (label : String) (level : Nat) (currentMemory : Int)
    (st : StartTime) : Option Timers :=
  (getPersistedLabel label level).map fun lab => timeStartAt timers lab currentMemory st

/-- Model of `timeEndImpl(label, level = 3)`. -/
def timeEndImpl (timers : Timers) (label : String) (level : Nat) (currentMemory : Int)
    (elapsed : Option StartTime → Int) : Option Timers :=
  (getPersistedLabel label level).map fun lab => timeEndAt timers lab currentMemory elapsed

/-- Model of `getTimings`: the serialized `[time, memory, totalMemory]`
triple for every label, in registry insertion order. -/
def getTimings (timers : Timers) : List (String × (Int × Int × Int)) :=
  timers.map fun p => (p.1, (p.2.time, p.2.memory, p.2.totalMemory))

/-- Projection of one label's serialized accumulators. -/
def timerAccums (timers : Timers) (label : String) : Option (Int × Int × Int) :=
  (List.lookup label timers).map fun t => (t.time, t.memory, t.totalMemory)

/-- Model of an OpenTelemetry span as far as this core touches it: the name
it was started with, its attribute bag, and whether `end()` has been
called.  Attribute values are `Option Int` so that `undefined as never`
attribute writes are representable as `none`. -/
structure SpanData where
  name : String
  attrs : List (String × Option Int)
  ended : Bool
deriving DecidableEq

/-- Model of the `Spans` registry object. -/
abbrev Spans := List (String × SpanData)

/-- Model of `span.setAttribute(key, value)`.  Per the OpenTelemetry
contract, attribute writes after `end()` are discarded: closing is
terminal. -/
def setAttr (sp : SpanData) (k : String) (v : Option Int) : SpanData :=
  if sp.ended then sp else { sp with attrs := setA sp.attrs k v }

/-- Model of `span.setAttributes(map)` as iterated `setAttribute`. -/
def setAttrsAll (sp : SpanData) (kvs : List (String × Option Int)) : SpanData :=
  kvs.foldl (fun s kv => setAttr s kv.1 kv.2) sp

/-- Model of `span.end()`. -/
def endSpan (sp : SpanData) : SpanData := { sp with ended := true }

/-- Model of `tracer.startSpan(label)`: a fresh open span named `label`. -/
def startSpan (name : String) : SpanData :=
  { name := name, attrs := [], ended := false }

/-- The initial attribute map written by `timeStartTraceImpl`
(`startMemory` and `endMemory` are `undefined as never`). -/
def startSpanAttrs : List (String × Option Int) :=
  [("memory", some 0), ("startMemory", none), ("endMemory", none), ("totalMemory", some 0)]

/-- Model of `timeStartTraceImpl(label, _level?)`: if no span is registered
under the raw (unformatted) `label`, start one, write the initial
attributes, register it, then record the `getMemory()` sample
(`currentMemory`) as its `startMemory` attribute.  The level argument is
ignored. -/
def timeStartTraceImpl (spans : Spans) (label : String) (_level : Option Nat)
    (currentMemory : Int) : Spans :=
  if hasOwnProp spans label then spans
  else
    let new_span := setAttrsAll (startSpan label) startSpanAttrs
    let spans := setA spans label new_span
    updateA spans label fun sp => setAttr sp "startMemory" (some currentMemory)

/-- Model of `timeEndTraceImpl(label, _level?)`.  The guard checks the
TIMER registry (`timers.hasOwnProperty(label)`), not the span registry.
When the guard passes, `spans[label]` is read: if no span is registered
there the value is `undefined` and the following `setAttribute` call
throws a `TypeError`, modelled as `none`.  Otherwise the span's
`totalMemory` attribute is set to `max` of the TIMER record's
`totalMemory` and the current memory sample, `endMemory` is set to the
current sample, and the span is closed. -/
def timeEndTraceImpl (timers : Timers) (spans : Spans) (label : String)
    (currentMemory : Int) : Option Spans :=
  match List.lookup label timers with
  | none => some spans
  | some t =>
    match List.lookup label spans with
    | none => none
    | some _ =>
      some (updateA spans label fun sp =>
        endSpan (setAttr (setAttr sp "totalMemory" (some (max t.totalMemory currentMemory)))
          "endMemory" (some currentMemory)))

/-- A hook function value.  `fn i` stands for an arbitrary original
user-supplied function (distinct `i` = distinct function identity);
`wrapped timerLabel f` is the closure built by `getPluginWithTimers`
around original hook `f` with the captured label. -/
inductive HookFn where
  | fn (id : Nat)
  | wrapped (timerLabel : String) (inner : HookFn)
deriving DecidableEq

/-- A plugin-like object: its display `name` property (the empty string
models an absent / falsy name, since `if (plugin.name)` is a truthiness
test) and its own function-valued properties in insertion order. -/
structure PluginV where
  name : String
  hooks : List (String × HookFn)
deriving DecidableEq

/-- Model of the `TIMED_PLUGIN_HOOKS` allow-list. -/
def TIMED_PLUGIN_HOOKS : List String :=
  ["load", "resolveDynamicImport", "resolveId", "transform"]

/-- Model of `getPluginWithTimers(plugin, index)`: a new object whose
allow-listed hooks are replaced by timing wrappers capturing the label
`"plugin {index}" [+ " ({name})"] + " - {hook}"`, and whose other
properties are copied through unchanged. -/
def getPluginWithTimers (plugin : PluginV) (index : Nat) : PluginV :=
  { name := plugin.name
    hooks := plugin.hooks.map fun h =>
      if TIMED_PLUGIN_HOOKS.contains h.1 then
        let timerLabel := "plugin " ++ toString index
        let timerLabel := if plugin.name != "" then timerLabel ++ " (" ++ plugin.name ++ ")"
          else timerLabel
        let timerLabel := timerLabel ++ " - " ++ h.1
        (h.1, HookFn.wrapped timerLabel h.2)
      else h }

/-- Model of `getPluginWithSpan(plugin, _index)`: the identity
pass-through. -/
def getPluginWithSpan (plugin : PluginV) (_index : Nat) : PluginV := plugin

/-- What the facade slots `timeStart` / `timeEnd` are currently bound to:
`NOOP`, the timing implementations, or the tracing implementations. -/
inductive Binding where
  | noop
  | timing
  | tracing
deriving DecidableEq

/-- The module-level mutable state of `timers.ts`: the two registries and
the two facade-bound function slots. -/
structure ModuleState where
  timers : Timers
  spans : Spans
  timeStart : Binding
  timeEnd : Binding

/-- Model of the recognized `InputOptions` fields. -/
structure InputOptions where
  perf : Bool
  trace : Bool
  plugins : List PluginV

/-- Model of `Array.prototype.map` with the element index passed as the
callback's second argument. -/
def mapWithIndex (f : α → Nat → β) : List α → Nat → List β
  | [], _ => []
  | a :: as, i => f a i :: mapWithIndex f as (i + 1)

/-- Model of `initialiseTimers(inputOptions)`.  The `perf` branch resets
the timer registry, binds the timing implementations and rewrites the
plugin list with `getPluginWithTimers`; the `else` branch binds no-ops
(and resets nothing).  The `trace` branch then runs on the possibly
already-rewritten options: it resets the span registry, rebinds the
slots to the tracing implementations and maps the identity
`getPluginWithSpan` over the plugin list.  `setTimeHelpers()` only
selects the ambient capabilities, which this embedding passes as
explicit samples, so it has no modelled state effect. -/
def initialiseTimers (s : ModuleState) (o : InputOptions) : ModuleState × InputOptions :=
  let r :=
    if o.perf then
      ({ s with timers := [], timeStart := Binding.timing, timeEnd := Binding.timing },
       { o with plugins := mapWithIndex getPluginWithTimers o.plugins 0 })
    else
      ({ s with timeStart := Binding.noop, timeEnd := Binding.noop }, o)
  if r.2.trace then
    ({ r.1 with spans := [], timeStart := Binding.tracing, timeEnd := Binding.tracing },
     { r.2 with plugins := mapWithIndex getPluginWithSpan r.2.plugins 0 })
  else r

/-- One call through the facade slots, carrying the environment samples
the bound implementation would take: `level` is the optional second
argument (the timing implementations default it to 3). -/
inductive FacadeCall where
  | startCall (label : String) (level : Option Nat) (mem : Int) (st : StartTime)
  | endCall (label : String) (level : Option Nat) (mem : Int) (elapsed : Option StartTime → Int)

/-- Dispatch of one facade call through the currently bound slot. -/
def applyCall (s : ModuleState) : FacadeCall → Option ModuleState
  | .startCall label level mem st =>
    match s.timeStart with
    | .noop => some s
    | .timing => (timeStartImpl s.timers label (level.getD 3) mem st).map
        fun t => { s with timers := t }
    | .tracing => some { s with spans := timeStartTraceImpl s.spans label level mem }
  | .endCall label level mem el =>
    match s.timeEnd with
    | .noop => some s
    | .timing => (timeEndImpl s.timers label (level.getD 3) mem el).map
        fun t => { s with timers := t }
    | .tracing => (timeEndTraceImpl s.timers s.spans label mem).map
        fun sp => { s with spans := sp }

/-- A sequence of facade calls, run left to right. -/
def runFacadeCalls (s : ModuleState) : List FacadeCall → Option ModuleState
  | [] => some s
  | c :: cs => do runFacadeCalls (← applyCall s c) cs

/-- The synchronous outcome of invoking the original hook: it either
returns a value (`thenable` records whether the value exposes a callable
`then`, i.e. behaves as a promise) or throws. -/
inductive SyncBehavior where
  | returns (v : Int) (thenable : Bool)
  | throws (e : Int)

/-- What the wrapper hands back to the hook's caller synchronously. -/
inductive SyncResult where
  | thrown (e : Int)
  | plain (v : Int)
  | chained (v : Int) (asyncLabel : String)
deriving DecidableEq

/-- How a deferred value eventually settles. -/
inductive Settlement where
  | fulfilled (v : Int)
  | rejected (e : Int)
deriving DecidableEq

/-- The environment samples consumed by one wrapper invocation: the
memory/time samples of its `timeStart` call, the memory sample and
elapsed-time capability of its `timeEnd` call, and the samples of the
`timeStart` for the `" (async)"` label when the result is thenable. -/
structure WrapEnv where
  startMem : Int
  startTime : StartTime
  endMem : Int
  elapsed : Option StartTime → Int
  asyncMem : Int
  asyncTime : StartTime

/-- Model of the synchronous part of the wrapper installed by
`getPluginWithTimers`: `timeStart(timerLabel, 4)`, invoke the hook, and —
only if it returns normally — `timeEnd(timerLabel, 4)`, then, if the
result is thenable, `timeStart(timerLabel + " (async)", 4)` and return
the continuation-chained result.  A synchronous throw propagates
unchanged with no `timeEnd`. -/
def wrappedHookSync (timerLabel : String) (beh : SyncBehavior) (env : WrapEnv)
    (timers : Timers) : Option (Timers × SyncResult) := do
  let t1 ← timeStartImpl timers timerLabel 4 env.startMem env.startTime
  match beh with
  | .throws e => pure (t1, SyncResult.thrown e)
  | .returns v thenable =>
    let t2 ← timeEndImpl t1 timerLabel 4 env.endMem env.elapsed
    if thenable then
      let t3 ← timeStartImpl t2 (timerLabel ++ " (async)") 4 env.asyncMem env.asyncTime
      pure (t3, SyncResult.chained v (timerLabel ++ " (async)"))
    else
      pure (t2, SyncResult.plain v)

/-- Model of the settlement of the chained result
`result.then(hookResult => { timeEnd(timerLabel + " (async)", 4); return hookResult; })`:
the source installs only a fulfillment handler, so a fulfilled value runs
`timeEnd` for the `" (async)"` label and is re-exposed unchanged, while a
rejection bypasses the handler entirely (standard promise semantics of
`then` without an `onRejected` argument) and propagates unchanged with
the async timer left open. -/
def asyncSettle (timerLabel : String) (s : Settlement) (endMem : Int)
    (elapsed : Option StartTime → Int) (timers : Timers) : Option (Timers × Settlement) :=
  match s with
  | .fulfilled v => do
    let t ← timeEndImpl timers (timerLabel ++ " (async)") 4 endMem elapsed
    pure (t, Settlement.fulfilled v)
  | .rejected e => pure (timers, Settlement.rejected e)

/-- The environment samples of one complete `timeStart`/`timeEnd` cycle
for a label: the start call's memory/time samples, and the end call's
memory sample and elapsed-time capability. -/
structure CycleEnv where
  startMem : Int
  startTime : StartTime
  endMem : Int
  elapsed : Option StartTime → Int

/-- One complete `timeStartImpl`/`timeEndImpl` cycle. -/
def runCycle (ts : Timers) (label : String) (level : Nat) (c : CycleEnv) : Option Timers := do
  let t1 ← timeStartImpl ts label level c.startMem c.startTime
  timeEndImpl t1 label level c.endMem c.elapsed

/-- A sequence of complete cycles, run left to right. -/
def runCycles (ts : Timers) (label : String) (level : Nat) : List CycleEnv → Option Timers
  | [] => some ts
  | c :: cs => do runCycles (← runCycle ts label level c) label level cs

/-- One complete cycle on an already-persisted label. -/
def runCycleAt (ts : Timers) (label : String) (c : CycleEnv) : Timers :=
  timeEndAt (timeStartAt ts label c.startMem c.startTime) label c.endMem c.elapsed

/-- A sequence of complete cycles on an already-persisted label. -/
def runCyclesAt (ts : Timers) (label : String) : List CycleEnv → Timers
  | [] => ts
  | c :: cs => runCyclesAt (runCycleAt ts label c) label cs

/-- The net effect of one complete cycle on a label's record. -/
def cycleUpd (t : Timer) (c : CycleEnv) : Timer :=
  { t with startTime := some c.startTime, startMemory := some c.startMem,
           time := t.time + c.elapsed (some c.startTime),
           totalMemory := max t.totalMemory c.endMem,
           memory := t.memory + (c.endMem - c.startMem) }

/-! ### Association-list lemmas -/

theorem lookup_updateA_self (ts : List (String × α)) (l : String) (f : α → α) :
    List.lookup l (updateA ts l f) = (List.lookup l ts).map f := by
  induction ts with
  | nil => rfl
  | cons p ts ih =>
    obtain ⟨k, v⟩ := p
    by_cases h : k = l
    · subst h
      simp [updateA, List.lookup_cons]
    · have h' : (l == k) = false := by simp [Ne.symm h]
      simp only [updateA, List.map_cons, if_neg h, List.lookup_cons, h']
      exact ih

theorem lookup_updateA_ne (ts : List (String × α)) (l l' : String) (f : α → α)
    (h : l' ≠ l) : List.lookup l' (updateA ts l f) = List.lookup l' ts := by
  induction ts with
  | nil => rfl
  | cons p ts ih =>
    obtain ⟨k, v⟩ := p
    by_cases hp : k = l
    · have h' : (l' == k) = false := by simp [hp, h]
      simp only [updateA, List.map_cons, if_pos hp, List.lookup_cons, h']
      exact ih
    · by_cases hq : l' = k
      · simp only [updateA, List.map_cons, if_neg hp, List.lookup_cons,
          show (l' == k) = true by simp [hq]]
      · simp only [updateA, List.map_cons, if_neg hp, List.lookup_cons,
          show (l' == k) = false by simp [hq]]
        exact ih

theorem lookup_append_right (ts us : List (String × α)) (l : String)
    (h : List.lookup l ts = none) : List.lookup l (ts ++ us) = List.lookup l us := by
  induction ts with
  | nil => rfl
  | cons p ts ih =>
    obtain ⟨k, v⟩ := p
    by_cases hq : l = k
    · simp only [List.lookup_cons, show (l == k) = true by simp [hq]] at h
      exact absurd h (by simp)
    · simp only [List.cons_append, List.lookup_cons,
        show (l == k) = false by simp [hq]] at h ⊢
      exact ih h

theorem lookup_setA_self (ts : List (String × α)) (l : String) (v : α) :
    List.lookup l (setA ts l v) = some v := by
  unfold setA
  by_cases h : (List.lookup l ts).isSome
  · rw [if_pos h, lookup_updateA_self]
    cases hv : List.lookup l ts with
    | none => rw [hv] at h; simp at h
    | some w => simp
  · rw [if_neg h]
    have hn : List.lookup l ts = none := by
      cases hv : List.lookup l ts with
      | none => rfl
      | some w => rw [hv] at h; simp at h
    rw [lookup_append_right ts _ l hn]
    simp [List.lookup_cons]

theorem lookup_setA_ne (ts : List (String × α)) (l l' : String) (v : α)
    (h : l' ≠ l) : List.lookup l' (setA ts l v) = List.lookup l' ts := by
  unfold setA
  by_cases hs : (List.lookup l ts).isSome
  · rw [if_pos hs, lookup_updateA_ne _ _ _ _ h]
  · rw [if_neg hs]
    induction ts with
    | nil => simp [List.lookup_cons, show (l' == l) = false by simp [h]]
    | cons p ts ih =>
      obtain ⟨k, v'⟩ := p
      by_cases hq : l' = k
      · simp only [List.cons_append, List.lookup_cons, show (l' == k) = true by simp [hq]]
      · simp only [List.cons_append, List.lookup_cons,
          show (l' == k) = false by simp [hq]] at ih ⊢
        by_cases hlk : l = k
        · simp only [List.lookup_cons, show (l == k) = true by simp [hlk]] at hs
          simp at hs
        · simp only [List.lookup_cons, show (l == k) = false by simp [hlk]] at hs
          exact ih hs

/-! ### Timer-operation lookup lemmas -/

theorem lookup_timeStartAt_self (ts : Timers) (l : String) (m : Int) (st : StartTime) :
    List.lookup l (timeStartAt ts l m st) =
      some { (List.lookup l ts).getD freshTimer with startTime := some st, startMemory := some m } := by
  unfold timeStartAt hasOwnProp
  by_cases h : (List.lookup l ts).isSome
  · rw [if_pos h, lookup_updateA_self, lookup_updateA_self]
    cases hv : List.lookup l ts with
    | none => rw [hv] at h; simp at h
    | some t => simp
  · rw [if_neg (by simpa using h), lookup_updateA_self, lookup_updateA_self, lookup_setA_self]
    have hn : List.lookup l ts = none := by
      cases hv : List.lookup l ts with
      | none => rfl
      | some w => rw [hv] at h; simp at h
    simp [hn]

theorem lookup_timeStartAt_ne (ts : Timers) (l l' : String) (m : Int) (st : StartTime)
    (h : l' ≠ l) : List.lookup l' (timeStartAt ts l m st) = List.lookup l' ts := by
  unfold timeStartAt hasOwnProp
  by_cases hs : (List.lookup l ts).isSome
  · rw [if_pos hs, lookup_updateA_ne _ _ _ _ h, lookup_updateA_ne _ _ _ _ h]
  · rw [if_neg (by simpa using hs), lookup_updateA_ne _ _ _ _ h, lookup_updateA_ne _ _ _ _ h,
      lookup_setA_ne _ _ _ _ h]

theorem lookup_timeEndAt_self (ts : Timers) (l : String) (m : Int)
    (el : Option StartTime → Int) (t : Timer) (h : List.lookup l ts = some t) :
    List.lookup l (timeEndAt ts l m el) =
      some { t with time := t.time + el t.startTime,
                    totalMemory := max t.totalMemory m,
                    memory := t.memory + (m - t.startMemory.getD 0) } := by
  unfold timeEndAt hasOwnProp
  rw [if_pos (by simp [h]), lookup_updateA_self, lookup_updateA_self, lookup_updateA_self, h]
  rfl

theorem timeEndAt_absent (ts : Timers) (l : String) (m : Int)
    (el : Option StartTime → Int) (h : List.lookup l ts = none) :
    timeEndAt ts l m el = ts := by
  unfold timeEndAt hasOwnProp
  rw [if_neg (by simp [h])]

theorem lookup_timeEndAt_ne (ts : Timers) (l l' : String) (m : Int)
    (el : Option StartTime → Int) (h : l' ≠ l) :
    List.lookup l' (timeEndAt ts l m el) = List.lookup l' ts := by
  unfold timeEndAt hasOwnProp
  by_cases hs : (List.lookup l ts).isSome
  · rw [if_pos (by simpa using hs), lookup_updateA_ne _ _ _ _ h, lookup_updateA_ne _ _ _ _ h,
      lookup_updateA_ne _ _ _ _ h]
  · rw [if_neg (by simpa using hs)]

/-! ### Label-formatter lemmas -/

theorem strRepeat_two_spaces (n : Nat) :
    strRepeat "  " n = String.mk (List.replicate (2 * n) ' ') := by
  induction n with
  | zero => rfl
  | succ k ih =>
    have h2 : 2 * (k + 1) = 2 * k + 1 + 1 := by ring
    rw [strRepeat, ih, h2]
    rfl

theorem getPersistedLabel_ge_four (label : String) (level : Nat) (h : 4 ≤ level) :
    getPersistedLabel label level =
      some (strRepeat "  " (level - 4) ++ "- " ++ label) := by
  unfold getPersistedLabel
  rw [if_neg (by omega), if_neg (by omega), if_neg (by omega), if_neg (by omega)]

theorem getPersistedLabel_isSome (label : String) (level : Nat) (h : 1 ≤ level) :
    (getPersistedLabel label level).isSome = true := by
  unfold getPersistedLabel
  by_cases h1 : level = 1
  · simp [h1]
  · by_cases h2 : level = 2
    · simp [h2]
    · by_cases h3 : level = 3
      · simp [h3]
      · rw [if_neg h1, if_neg h2, if_neg h3, if_neg (by omega)]
        rfl

theorem asyncKey_ne_mainKey (L : String) : ("- " ++ (L ++ " (async)")) ≠ ("- " ++ L) := by
  intro h
  have hl := congrArg String.length h
  have h8 : (" (async)" : String).length = 8 := rfl
  simp only [String.length_append, h8] at hl
  omega

/-! ### Cycle lemmas -/

theorem runCycles_eq_At (label : String) (level : Nat) (L : String)
    (h : getPersistedLabel label level = some L) (cs : List CycleEnv) :
    ∀ ts : Timers, runCycles ts label level cs = some (runCyclesAt ts L cs) := by
  induction cs with
  | nil => intro ts; rfl
  | cons c cs ih =>
    intro ts
    simp only [runCycles, runCycle, timeStartImpl, timeEndImpl, h, Option.map_some',
      Option.bind_some, Option.some_bind, runCyclesAt, runCycleAt]
    exact ih _

theorem lookup_runCycleAt_self (ts : Timers) (L : String) (c : CycleEnv) :
    List.lookup L (runCycleAt ts L c) =
      some (cycleUpd ((List.lookup L ts).getD freshTimer) c) := by
  unfold runCycleAt
  rw [lookup_timeEndAt_self _ _ _ _ _ (lookup_timeStartAt_self ts L c.startMem c.startTime)]
  rfl

theorem lookup_runCyclesAt (L : String) (cs : List CycleEnv) :
    ∀ (ts : Timers) (t0 : Timer), List.lookup L ts = some t0 →
      List.lookup L (runCyclesAt ts L cs) = some (cs.foldl cycleUpd t0) := by
  induction cs with
  | nil => intro ts t0 h; simpa [runCyclesAt] using h
  | cons c cs ih =>
    intro ts t0 h
    have h1 : List.lookup L (runCycleAt ts L c) = some (cycleUpd t0 c) := by
      rw [lookup_runCycleAt_self, h]
      rfl
    simpa [runCyclesAt, List.foldl_cons] using ih _ _ h1

theorem foldl_cycleUpd_spec (cs : List CycleEnv) : ∀ t0 : Timer,
    (cs.foldl cycleUpd t0).time = t0.time + (cs.map fun c => c.elapsed (some c.startTime)).sum ∧
    (cs.foldl cycleUpd t0).memory = t0.memory + (cs.map fun c => c.endMem - c.startMem).sum ∧
    (cs.foldl cycleUpd t0).totalMemory = (cs.map fun c => c.endMem).foldl max t0.totalMemory := by
  induction cs with
  | nil => intro t0; simp
  | cons c cs ih =>
    intro t0
    obtain ⟨h1, h2, h3⟩ := ih (cycleUpd t0 c)
    refine ⟨?_, ?_, ?_⟩
    · rw [List.foldl_cons, h1]; simp [cycleUpd]; ring
    · rw [List.foldl_cons, h2]; simp [cycleUpd]; ring
    · rw [List.foldl_cons, h3]; simp [cycleUpd]

theorem int_foldl_max_spec (ms : List Int) : ∀ a : Int,
    a ≤ ms.foldl max a ∧ (∀ m ∈ ms, m ≤ ms.foldl max a) ∧
      (ms.foldl max a = a ∨ ms.foldl max a ∈ ms) := by
  induction ms with
  | nil => intro a; exact ⟨le_refl a, by simp, Or.inl rfl⟩
  | cons m ms ih =>
    intro a
    obtain ⟨h1, h2, h3⟩ := ih (max a m)
    simp only [List.foldl_cons]
    refine ⟨le_trans (le_max_left a m) h1, ?_, ?_⟩
    · intro x hx
      rcases List.mem_cons.mp hx with hx | hx
      · subst hx; exact le_trans (le_max_right a x) h1
      · exact h2 x hx
    · rcases h3 with h | h
      · rcases max_choice a m with hm | hm
        · exact Or.inl (by rw [h, hm])
        · exact Or.inr (by rw [h, hm]; exact List.mem_cons_self m ms)
      · exact Or.inr (List.mem_cons_of_mem m h)

/-! ### Facade and initialization lemmas -/

theorem runFacadeCalls_noop (s : ModuleState) (h1 : s.timeStart = Binding.noop)
    (h2 : s.timeEnd = Binding.noop) : ∀ calls, runFacadeCalls s calls = some s := by
  intro calls
  induction calls with
  | nil => rfl
  | cons c cs ih =>
    have hc : applyCall s c = some s := by
      cases c <;> simp [applyCall, h1, h2]
    simp only [runFacadeCalls, hc, Option.bind_some, Option.some_bind]
    exact ih

theorem mapWithIndex_span_id (ps : List PluginV) :
    ∀ i, mapWithIndex getPluginWithSpan ps i = ps := by
  induction ps with
  | nil => intro i; rfl
  | cons p ps ih => intro i; simp [mapWithIndex, getPluginWithSpan, ih]

/-! ### Wrapper rfl-lemmas -/

theorem wrappedHookSync_throws (L : String) (e : Int) (env : WrapEnv) (ts : Timers) :
    wrappedHookSync L (.throws e) env ts =
      some (timeStartAt ts ("- " ++ L) env.startMem env.startTime, SyncResult.thrown e) := rfl

theorem wrappedHookSync_plain (L : String) (v : Int) (env : WrapEnv) (ts : Timers) :
    wrappedHookSync L (.returns v false) env ts =
      some (timeEndAt (timeStartAt ts ("- " ++ L) env.startMem env.startTime)
        ("- " ++ L) env.endMem env.elapsed, SyncResult.plain v) := rfl

theorem wrappedHookSync_thenable (L : String) (v : Int) (env : WrapEnv) (ts : Timers) :
    wrappedHookSync L (.returns v true) env ts =
      some (timeStartAt
        (timeEndAt (timeStartAt ts ("- " ++ L) env.startMem env.startTime)
          ("- " ++ L) env.endMem env.elapsed)
        ("- " ++ (L ++ " (async)")) env.asyncMem env.asyncTime,
        SyncResult.chained v (L ++ " (async)")) := rfl

theorem asyncSettle_fulfilled (L : String) (v : Int) (em : Int)
    (el : Option StartTime → Int) (ts : Timers) :
    asyncSettle L (.fulfilled v) em el ts =
      some (timeEndAt ts ("- " ++ (L ++ " (async)")) em el, Settlement.fulfilled v) := rfl

theorem asyncSettle_rejected (L : String) (e : Int) (em : Int)
    (el : Option StartTime → Int) (ts : Timers) :
    asyncSettle L (.rejected e) em el ts = some (ts, Settlement.rejected e) := rfl

theorem lookup_of_hasOwnProp_false (ts : List (String × α)) (l : String)
    (h : hasOwnProp ts l = false) : List.lookup l ts = none := by
  unfold hasOwnProp at h
  cases hv : List.lookup l ts with
  | none => rfl
  | some v => rw [hv] at h; simp at h

/-! ### Claim theorems -/

/-- Claim C1: in Timing mode, for every label and every sequence of n
complete timeStart/timeEnd cycles, the label's record ends with
accumulated time equal to the sum of the n individually measured
elapsed intervals, accumulated memory delta equal to the sum of the n
per-cycle end-minus-start memory differences, and peak memory equal to
the maximum end-time memory sample across the n cycles (memory samples
are non-negative); and timeEnd for an unknown label changes nothing. -/
theorem c1_timing_cycles (label : String) (level : Nat) (L : String) (ts : Timers)
    (cs : List CycleEnv)
    (hL : getPersistedLabel label level = some L)
    (habs : hasOwnProp ts L = false)
    (hne : cs ≠ [])
    (hmem : ∀ c ∈ cs, 0 ≤ c.endMem) :
    (∃ tfin t1, runCycles ts label level cs = some tfin ∧
      List.lookup L tfin = some t1 ∧
      t1.time = (cs.map fun c => c.elapsed (some c.startTime)).sum ∧
      t1.memory = (cs.map fun c => c.endMem - c.startMem).sum ∧
      t1.totalMemory ∈ cs.map (fun c => c.endMem) ∧
      (∀ m ∈ cs.map (fun c => c.endMem), m ≤ t1.totalMemory)) ∧
    (∀ (ts' : Timers) (lab : String) (lev : Nat) (L' : String) (m : Int)
        (el : Option StartTime → Int), getPersistedLabel lab lev = some L' →
        hasOwnProp ts' L' = false → timeEndImpl ts' lab lev m el = some ts') := by
  constructor
  · match cs, hne with
    | c :: cs', _ =>
      have h0 : List.lookup L ts = none := lookup_of_hasOwnProp_false ts L habs
      have hc1 : List.lookup L (runCycleAt ts L c) = some (cycleUpd freshTimer c) := by
        rw [lookup_runCycleAt_self, h0]
        rfl
      have h2 := lookup_runCyclesAt L cs' _ _ hc1
      have hfold : cs'.foldl cycleUpd (cycleUpd freshTimer c) =
          (c :: cs').foldl cycleUpd freshTimer := rfl
      rw [hfold] at h2
      obtain ⟨ht, hm, hp⟩ := foldl_cycleUpd_spec (c :: cs') freshTimer
      obtain ⟨hge, hub, hch⟩ := int_foldl_max_spec ((c :: cs').map fun c => c.endMem) 0
      refine ⟨runCyclesAt ts L (c :: cs'), (c :: cs').foldl cycleUpd freshTimer,
        runCycles_eq_At label level L hL (c :: cs') ts, h2, ?_, ?_, ?_, ?_⟩
      · rw [ht]; simp [freshTimer]
      · rw [hm]; simp [freshTimer]
      · rw [hp, show freshTimer.totalMemory = (0 : Int) from rfl]
        rcases hch with hch | hch
        · have hhd : c.endMem ∈ (c :: cs').map fun c => c.endMem := by simp
          have hle : c.endMem ≤ 0 := hch ▸ hub _ hhd
          have hge' : (0 : Int) ≤ c.endMem := hmem c (by simp)
          have heq : c.endMem = 0 := le_antisymm hle hge'
          rw [hch, ← heq]
          exact hhd
        · exact hch
      · intro m hm'
        rw [hp, show freshTimer.totalMemory = (0 : Int) from rfl]
        exact hub m hm'
  · intro ts' lab lev L' m el hL' habs'
    unfold timeEndImpl
    rw [hL', Option.map_some', timeEndAt_absent _ _ _ _ (lookup_of_hasOwnProp_false ts' L' habs')]

/-- Claim C1 witness: two concrete complete cycles for label "x" at the
default level 3 starting from the empty registry. -/
theorem c1_timing_cycles_witness :
    getPersistedLabel "x" 3 = some "x" ∧
    hasOwnProp ([] : Timers) "x" = false ∧
    ([⟨10, (0, 0), 30, fun _ => 5⟩, ⟨20, (1, 1), 25, fun _ => 7⟩] : List CycleEnv) ≠ [] ∧
    (∀ c ∈ ([⟨10, (0, 0), 30, fun _ => 5⟩, ⟨20, (1, 1), 25, fun _ => 7⟩] : List CycleEnv),
      0 ≤ c.endMem) ∧
    ((∃ tfin t1, runCycles [] "x" 3
        [⟨10, (0, 0), 30, fun _ => 5⟩, ⟨20, (1, 1), 25, fun _ => 7⟩] = some tfin ∧
      List.lookup "x" tfin = some t1 ∧
      t1.time = (([⟨10, (0, 0), 30, fun _ => 5⟩, ⟨20, (1, 1), 25, fun _ => 7⟩] :
          List CycleEnv).map fun c => c.elapsed (some c.startTime)).sum ∧
      t1.memory = (([⟨10, (0, 0), 30, fun _ => 5⟩, ⟨20, (1, 1), 25, fun _ => 7⟩] :
          List CycleEnv).map fun c => c.endMem - c.startMem).sum ∧
      t1.totalMemory ∈ ([⟨10, (0, 0), 30, fun _ => 5⟩, ⟨20, (1, 1), 25, fun _ => 7⟩] :
          List CycleEnv).map (fun c => c.endMem) ∧
      (∀ m ∈ ([⟨10, (0, 0), 30, fun _ => 5⟩, ⟨20, (1, 1), 25, fun _ => 7⟩] :
          List CycleEnv).map (fun c => c.endMem), m ≤ t1.totalMemory)) ∧
    (∀ (ts' : Timers) (lab : String) (lev : Nat) (L' : String) (m : Int)
        (el : Option StartTime → Int), getPersistedLabel lab lev = some L' →
        hasOwnProp ts' L' = false → timeEndImpl ts' lab lev m el = some ts')) :=
  ⟨rfl, rfl, by simp, by simp, c1_timing_cycles "x" 3 "x" []
    [⟨10, (0, 0), 30, fun _ => 5⟩, ⟨20, (1, 1), 25, fun _ => 7⟩]
    rfl rfl (by simp) (by simp)⟩

/-- Claim C2 counterexample: the label formatter is not total over all
non-negative integer levels — at level 0 the `default` branch computes
`'  '.repeat(-4)`, which throws a `RangeError` (modelled as `none`). -/
theorem c2_level_zero_cex : getPersistedLabel "x" 0 = none := rfl

/-- Claim C2 (amended): the label formatter is deterministic and total
over all positive integer levels (at level 0 it throws), with
format("x",1) = "# x", format("x",2) = "## x", format("x",3) = "x",
format("x",4) = "- x", format("x",5) = "  - x", the general 2*(level-4)
spaces + "- " + name shape for level ≥ 4, and a facade-level default
level of 3 when the level argument is omitted. -/
theorem c2_label_formatter (name : String) (level : Nat) (h : 1 ≤ level) :
    (getPersistedLabel name level).isSome = true ∧
    getPersistedLabel name 1 = some ("# " ++ name) ∧
    getPersistedLabel name 2 = some ("## " ++ name) ∧
    getPersistedLabel name 3 = some name ∧
    getPersistedLabel name 4 = some ("- " ++ name) ∧
    getPersistedLabel name 5 = some ("  - " ++ name) ∧
    (4 ≤ level → getPersistedLabel name level =
      some (String.mk (List.replicate (2 * (level - 4)) ' ') ++ "- " ++ name)) ∧
    (∀ (s : ModuleState) (mem : Int) (st : StartTime),
      applyCall s (.startCall name none mem st) =
        applyCall s (.startCall name (some 3) mem st)) := by
  refine ⟨getPersistedLabel_isSome name level h, rfl, rfl, rfl, rfl, rfl, ?_, ?_⟩
  · intro h4
    rw [getPersistedLabel_ge_four name level h4, strRepeat_two_spaces]
  · intro s mem st
    rcases s with ⟨tms, sps, bs, be⟩
    cases bs <;> rfl

/-- Claim C2 witness: the amended formatter facts evaluated at name "x"
and level 5. -/
theorem c2_label_formatter_witness :
    1 ≤ 5 ∧
    ((getPersistedLabel "x" 5).isSome = true ∧
    getPersistedLabel "x" 1 = some ("# " ++ "x") ∧
    getPersistedLabel "x" 2 = some ("## " ++ "x") ∧
    getPersistedLabel "x" 3 = some "x" ∧
    getPersistedLabel "x" 4 = some ("- " ++ "x") ∧
    getPersistedLabel "x" 5 = some ("  - " ++ "x") ∧
    (4 ≤ 5 → getPersistedLabel "x" 5 =
      some (String.mk (List.replicate (2 * (5 - 4)) ' ') ++ "- " ++ "x")) ∧
    (∀ (s : ModuleState) (mem : Int) (st : StartTime),
      applyCall s (.startCall "x" none mem st) =
        applyCall s (.startCall "x" (some 3) mem st))) :=
  ⟨by decide, c2_label_formatter "x" 5 (by decide)⟩

/-- Claim C3 counterexample: with both perf and trace true, the plugin
list IS rewritten — the perf branch runs first and installs timing
wrappers, which the trace branch's identity pass-through then keeps. -/
theorem c3_perf_and_trace_cex :
    (initialiseTimers ⟨[], [], Binding.noop, Binding.noop⟩
      ⟨true, true, [⟨"p", [("transform", HookFn.fn 0)]⟩]⟩).2.plugins ≠
      [⟨"p", [("transform", HookFn.fn 0)]⟩] ∧
    (initialiseTimers ⟨[], [], Binding.noop, Binding.noop⟩
      ⟨true, true, [⟨"p", [("transform", HookFn.fn 0)]⟩]⟩).2.plugins =
      [⟨"p", [("transform", HookFn.wrapped "plugin 0 (p) - transform" (HookFn.fn 0))]⟩] :=
  ⟨by decide, rfl⟩

/-- Claim C3 (amended): whenever the trace flag is true at initialization,
timeStart/timeEnd are bound to the tracing implementations and the span
registry is reset; the trace branch itself does not rewrite the plugin
list (its map is the identity), so with perf false the plugin list is
unchanged — but with perf also true the perf branch has already
rewritten it with timing wrappers, which remain installed. -/
theorem c3_tracing_bindings (s : ModuleState) (perf : Bool) (ps : List PluginV) :
    (initialiseTimers s ⟨perf, true, ps⟩).1.timeStart = Binding.tracing ∧
    (initialiseTimers s ⟨perf, true, ps⟩).1.timeEnd = Binding.tracing ∧
    (initialiseTimers s ⟨perf, true, ps⟩).1.spans = [] ∧
    (initialiseTimers s ⟨perf, true, ps⟩).2.plugins =
      (if perf then mapWithIndex getPluginWithTimers ps 0 else ps) := by
  cases perf <;> simp [initialiseTimers, mapWithIndex_span_id]

/-- Claim C4 counterexample: a Disabled-mode initialization does NOT
reset the timer registry, so a record left by a previous activation
still shows up in the snapshot afterwards. -/
theorem c4_stale_registry_cex :
    getTimings (initialiseTimers
      ⟨[("x", ⟨2, some 0, some (0, 0), 1, 3⟩)], [], Binding.timing, Binding.timing⟩
      ⟨false, false, []⟩).1.timers = [("x", (1, 2, 3))] ∧
    getTimings (initialiseTimers
      ⟨[("x", ⟨2, some 0, some (0, 0), 1, 3⟩)], [], Binding.timing, Binding.timing⟩
      ⟨false, false, []⟩).1.timers ≠ [] :=
  ⟨rfl, by decide⟩

/-- Claim C4 (amended): after an initialization call with perf and trace
both false, the bound timeStart/timeEnd are no-ops, running any number of
facade calls leaves the state unchanged, and the plugin list is returned
unrewritten; however neither registry is reset by a disabled
initialization — the snapshot equals whatever it was before (and is
empty exactly for a previously empty registry, e.g. a fresh process). -/
theorem c4_disabled_mode (s : ModuleState) (ps : List PluginV) :
    (initialiseTimers s ⟨false, false, ps⟩).1.timeStart = Binding.noop ∧
    (initialiseTimers s ⟨false, false, ps⟩).1.timeEnd = Binding.noop ∧
    (initialiseTimers s ⟨false, false, ps⟩).2.plugins = ps ∧
    (initialiseTimers s ⟨false, false, ps⟩).1.timers = s.timers ∧
    (initialiseTimers s ⟨false, false, ps⟩).1.spans = s.spans ∧
    (∀ calls, runFacadeCalls (initialiseTimers s ⟨false, false, ps⟩).1 calls =
      some (initialiseTimers s ⟨false, false, ps⟩).1) ∧
    getTimings (initialiseTimers s ⟨false, false, ps⟩).1.timers = getTimings s.timers ∧
    getTimings ([] : Timers) = [] :=
  ⟨rfl, rfl, rfl, rfl, rfl, runFacadeCalls_noop _ rfl rfl, rfl, rfl⟩

theorem accums_after_plain_cycle (key : String) (env : WrapEnv) :
    timerAccums (timeEndAt (timeStartAt [] key env.startMem env.startTime)
      key env.endMem env.elapsed) key =
      some (env.elapsed (some env.startTime), env.endMem - env.startMem, max 0 env.endMem) := by
  have h1 := lookup_timeStartAt_self [] key env.startMem env.startTime
  have h2 := lookup_timeEndAt_self _ key env.endMem env.elapsed _ h1
  unfold timerAccums
  rw [h2]
  simp [freshTimer]

theorem hasOwnProp_after_plain_cycle_ne (key other : String) (env : WrapEnv)
    (h : other ≠ key) :
    hasOwnProp (timeEndAt (timeStartAt [] key env.startMem env.startTime)
      key env.endMem env.elapsed) other = false := by
  unfold hasOwnProp
  rw [lookup_timeEndAt_ne _ _ _ _ _ h, lookup_timeStartAt_ne _ _ _ _ _ h]
  rfl

theorem thenable_state_asyncKey (L : String) (env : WrapEnv) :
    List.lookup ("- " ++ (L ++ " (async)"))
      (timeStartAt (timeEndAt (timeStartAt [] ("- " ++ L) env.startMem env.startTime)
        ("- " ++ L) env.endMem env.elapsed)
        ("- " ++ (L ++ " (async)")) env.asyncMem env.asyncTime) =
      some { freshTimer with
              startTime := some env.asyncTime,
              startMemory := some env.asyncMem } := by
  have hne := asyncKey_ne_mainKey L
  rw [lookup_timeStartAt_self, lookup_timeEndAt_ne _ _ _ _ _ hne,
    lookup_timeStartAt_ne _ _ _ _ _ hne]
  rfl

/-- Claim C5 counterexample: the wrapper's synchronous portion is
recorded under the level-4 label "- plugin 0 (p) - transform" (one "- "
prefix, no leading spaces); no record exists under the claimed
"  - plugin 0 (p) - transform". -/
theorem c5_label_cex :
    (wrappedHookSync "plugin 0 (p) - transform" (.returns 0 false)
        ⟨0, (0, 0), 0, fun _ => 0, 0, (0, 0)⟩ []).map
      (fun r => (hasOwnProp r.1 "  - plugin 0 (p) - transform",
                 hasOwnProp r.1 "- plugin 0 (p) - transform")) = some (false, true) := rfl

/-- Claim C5 (amended): in Timing mode, instrumenting a plugin named "p"
at index 0 with a transform hook installs a wrapper capturing the label
"plugin 0 (p) - transform", and the wrapper's synchronous portion is
recorded in the registry under "- plugin 0 (p) - transform" (level 4
formatting: a "- " prefix with zero leading spaces), not under the
two-space variant. -/
theorem c5_transform_label :
    getPluginWithTimers ⟨"p", [("transform", HookFn.fn 0)]⟩ 0 =
      ⟨"p", [("transform", HookFn.wrapped "plugin 0 (p) - transform" (HookFn.fn 0))]⟩ ∧
    (∀ (v : Int) (env : WrapEnv),
      ∃ t1, wrappedHookSync "plugin 0 (p) - transform" (.returns v false) env [] =
          some (t1, SyncResult.plain v) ∧
        timerAccums t1 "- plugin 0 (p) - transform" =
          some (env.elapsed (some env.startTime), env.endMem - env.startMem,
            max 0 env.endMem) ∧
        hasOwnProp t1 "  - plugin 0 (p) - transform" = false) := by
  refine ⟨rfl, ?_⟩
  intro v env
  refine ⟨_, wrappedHookSync_plain "plugin 0 (p) - transform" v env [], ?_, ?_⟩
  · exact accums_after_plain_cycle ("- " ++ "plugin 0 (p) - transform") env
  · exact hasOwnProp_after_plain_cycle_ne ("- " ++ "plugin 0 (p) - transform")
      "  - plugin 0 (p) - transform" env (by decide)

/-- Claim C7: a synchronous throw from the wrapped hook propagates to the
caller completely unchanged, the wrapper's timeEnd is skipped, and the
label's accumulated time/memory/peak fields are exactly what they were
before the call (zeros for a freshly created record), with the interval
left open (startTime freshly written, never closed). -/
theorem c7_sync_throw (L : String) (e : Int) (env : WrapEnv) (ts : Timers) :
    wrappedHookSync L (.throws e) env ts =
      some (timeStartAt ts ("- " ++ L) env.startMem env.startTime, SyncResult.thrown e) ∧
    timerAccums (timeStartAt ts ("- " ++ L) env.startMem env.startTime) ("- " ++ L) =
      some ((timerAccums ts ("- " ++ L)).getD (0, 0, 0)) ∧
    (List.lookup ("- " ++ L) (timeStartAt ts ("- " ++ L) env.startMem env.startTime)).map
      Timer.startTime = some (some env.startTime) := by
  refine ⟨wrappedHookSync_throws L e env ts, ?_, ?_⟩
  · unfold timerAccums
    rw [lookup_timeStartAt_self]
    cases hv : List.lookup ("- " ++ L) ts with
    | none => rfl
    | some t => rfl
  · rw [lookup_timeStartAt_self]
    rfl

/-- Claim C6 counterexample: the injected continuation does NOT end the
second timer when the deferred value settles with a failure — the source
installs only a fulfillment handler, so on rejection the registry state
is bit-identical (the async interval stays open, accumulators stay
zero), although an actual timeEnd would have changed it. -/
theorem c6_rejected_settle_cex :
    ∃ t1, wrappedHookSync "x" (.returns 0 true) ⟨0, (0, 0), 0, fun _ => 0, 0, (0, 0)⟩ [] =
        some (t1, SyncResult.chained 0 "x (async)") ∧
      asyncSettle "x" (.rejected 9) 50 (fun _ => 7) t1 = some (t1, Settlement.rejected 9) ∧
      timerAccums t1 "- x (async)" = some (0, 0, 0) ∧
      timeEndImpl t1 "x (async)" 4 50 (fun _ => 7) ≠ some t1 := by
  refine ⟨_, wrappedHookSync_thenable "x" 0 ⟨0, (0, 0), 0, fun _ => 0, 0, (0, 0)⟩ [],
    asyncSettle_rejected "x" 9 50 (fun _ => 7) _, by rfl, by decide⟩

/-- Claim C6 (amended): when a wrapped hook returns a deferred value the
wrapper starts a second timer under the label plus " (async)" and
registers a continuation; the continuation ends that second timer and
re-exposes the value unchanged only when the deferred value settles with
a value — a failure propagates unchanged to the caller but bypasses the
continuation, leaving the second timer open and the registry state
untouched. -/
theorem c6_async_continuation (L : String) (v e : Int) (env : WrapEnv) (em : Int)
    (el : Option StartTime → Int) :
    ∃ t1, wrappedHookSync L (.returns v true) env [] =
        some (t1, SyncResult.chained v (L ++ " (async)")) ∧
      hasOwnProp t1 ("- " ++ (L ++ " (async)")) = true ∧
      (∃ t2, asyncSettle L (.fulfilled v) em el t1 = some (t2, Settlement.fulfilled v) ∧
        timerAccums t2 ("- " ++ (L ++ " (async)")) =
          some (el (some env.asyncTime), em - env.asyncMem, max 0 em)) ∧
      asyncSettle L (.rejected e) em el t1 = some (t1, Settlement.rejected e) := by
  refine ⟨_, wrappedHookSync_thenable L v env [], ?_, ?_, asyncSettle_rejected L e em el _⟩
  · unfold hasOwnProp
    rw [thenable_state_asyncKey L env]
    rfl
  · refine ⟨_, asyncSettle_fulfilled L v em el _, ?_⟩
    have h2 := lookup_timeEndAt_self _ ("- " ++ (L ++ " (async)")) em el _
      (thenable_state_asyncKey L env)
    unfold timerAccums
    rw [h2]
    simp [freshTimer]

/-- Claim C9 counterexample: the timer record under the " (async)"
label already exists in the registry at the time of the hook call,
before the deferred value settles. -/
theorem c9_async_at_call_cex :
    (wrappedHookSync "x" (.returns 0 true) ⟨0, (0, 0), 0, fun _ => 0, 0, (0, 0)⟩ []).map
      (fun r => (hasOwnProp r.1 "- x (async)", r.2)) =
      some (true, SyncResult.chained 0 "x (async)") := rfl

/-- Claim C9 (amended): when a wrapped hook returns a deferred value, the
" (async)" registry record is created immediately at call time by the
wrapper's second timeStart — with all accumulators still zero — and its
measured elapsed time and memory delta are accumulated only once the
deferred value settles (with a value). -/
theorem c9_async_record_timing (L : String) (v : Int) (env : WrapEnv) (em : Int)
    (el : Option StartTime → Int) :
    ∃ t1, wrappedHookSync L (.returns v true) env [] =
        some (t1, SyncResult.chained v (L ++ " (async)")) ∧
      timerAccums t1 ("- " ++ (L ++ " (async)")) = some (0, 0, 0) ∧
      ∃ t2, asyncSettle L (.fulfilled v) em el t1 = some (t2, Settlement.fulfilled v) ∧
        timerAccums t2 ("- " ++ (L ++ " (async)")) =
          some (el (some env.asyncTime), em - env.asyncMem, max 0 em) := by
  refine ⟨_, wrappedHookSync_thenable L v env [], ?_, ?_⟩
  · unfold timerAccums
    rw [thenable_state_asyncKey L env]
    rfl
  · refine ⟨_, asyncSettle_fulfilled L v em el _, ?_⟩
    have h2 := lookup_timeEndAt_self _ ("- " ++ (L ++ " (async)")) em el _
      (thenable_state_asyncKey L env)
    unfold timerAccums
    rw [h2]
    simp [freshTimer]

theorem setAttr_open (sp : SpanData) (k : String) (v : Option Int)
    (h : sp.ended = false) : setAttr sp k v = { sp with attrs := setA sp.attrs k v } := by
  unfold setAttr
  rw [if_neg (by simp [h])]

theorem setAttr_open2 (sp : SpanData) (k1 k2 : String) (v1 v2 : Option Int)
    (h : sp.ended = false) :
    (setAttr (setAttr sp k1 v1) k2 v2).attrs = setA (setA sp.attrs k1 v1) k2 v2 := by
  rw [setAttr_open sp k1 v1 h,
    setAttr_open { sp with attrs := setA sp.attrs k1 v1 } k2 v2 h]

/-- Claim C8 counterexample: in Tracing mode the end operation's guard
checks the TIMER registry, not the span registry — with a span present
but no timer record, timeEnd does nothing (the open span is not closed);
with a timer record but no span, it throws a TypeError
(undefined.setAttribute), modelled as none. -/
theorem c8_span_presence_cex :
    timeEndTraceImpl [] [("x", ⟨"x", [], false⟩)] "x" 5 = some [("x", ⟨"x", [], false⟩)] ∧
    (⟨"x", [], false⟩ : SpanData).ended = false ∧
    timeEndTraceImpl [("x", ⟨2, some 0, some (0, 0), 1, 3⟩)] [] "x" 5 = none :=
  ⟨rfl, rfl, rfl⟩

/-- Claim C8 (amended): in Tracing mode, timeEnd(label) checks the TIMER
registry for the label: with no timer record it does nothing, span or no
span; with a timer record and a registered open span it sets the span's
totalMemory attribute to the maximum of the TIMER record's totalMemory
and current memory, sets endMemory to current memory, and closes the
span; with a timer record but no span it throws a TypeError. -/
theorem c8_trace_end (tms : Timers) (sps : Spans) (label : String) (mem : Int) :
    (List.lookup label tms = none → timeEndTraceImpl tms sps label mem = some sps) ∧
    (∀ t : Timer, List.lookup label tms = some t → List.lookup label sps = none →
      timeEndTraceImpl tms sps label mem = none) ∧
    (∀ (t : Timer) (sp : SpanData), List.lookup label tms = some t →
      List.lookup label sps = some sp → sp.ended = false →
      ∃ sps' sp', timeEndTraceImpl tms sps label mem = some sps' ∧
        List.lookup label sps' = some sp' ∧ sp'.ended = true ∧
        List.lookup "totalMemory" sp'.attrs = some (some (max t.totalMemory mem)) ∧
        List.lookup "endMemory" sp'.attrs = some (some mem)) := by
  refine ⟨?_, ?_, ?_⟩
  · intro h
    simp [timeEndTraceImpl, h]
  · intro t h1 h2
    simp [timeEndTraceImpl, h1, h2]
  · intro t sp h1 h2 hop
    have e2 := setAttr_open2 sp "totalMemory" "endMemory"
      (some (max t.totalMemory mem)) (some mem) hop
    refine ⟨updateA sps label (fun sp => endSpan (setAttr (setAttr sp "totalMemory"
        (some (max t.totalMemory mem))) "endMemory" (some mem))),
      endSpan (setAttr (setAttr sp "totalMemory" (some (max t.totalMemory mem)))
        "endMemory" (some mem)), ?_, ?_, rfl, ?_, ?_⟩
    · simp [timeEndTraceImpl, h1, h2]
    · rw [lookup_updateA_self, h2, Option.map_some']
    · show List.lookup "totalMemory"
        (setAttr (setAttr sp "totalMemory" (some (max t.totalMemory mem)))
          "endMemory" (some mem)).attrs = _
      rw [e2, lookup_setA_ne _ _ _ _ (by decide), lookup_setA_self]
    · show List.lookup "endMemory"
        (setAttr (setAttr sp "totalMemory" (some (max t.totalMemory mem)))
          "endMemory" (some mem)).attrs = _
      rw [e2, lookup_setA_self]

/-- Claim C8 witness: the successful branch evaluated at a concrete state
with a timer record (totalMemory 3) and an open span for "x" at current
memory 5. -/
theorem c8_trace_end_witness :
    ∃ sps' sp', timeEndTraceImpl [("x", ⟨2, some 0, some (0, 0), 1, 3⟩)]
        [("x", ⟨"x", [], false⟩)] "x" 5 = some sps' ∧
      List.lookup "x" sps' = some sp' ∧ sp'.ended = true ∧
      List.lookup "totalMemory" sp'.attrs = some (some (max (3 : Int) 5)) ∧
      List.lookup "endMemory" sp'.attrs = some (some 5) :=
  (c8_trace_end [("x", ⟨2, some 0, some (0, 0), 1, 3⟩)] [("x", ⟨"x", [], false⟩)] "x" 5).2.2
    ⟨2, some 0, some (0, 0), 1, 3⟩ ⟨"x", [], false⟩ rfl rfl rfl

/-- Claim C10: in Tracing mode timeStart is idempotent per label — for a
label that already has a span, a second timeStart performs no action at
all — and is independent of the level argument, since the span key is
the raw unformatted label; by contrast, in Timing mode the level changes
the aggregation key and a repeated start overwrites the open interval's
start timestamp. -/
theorem c10_trace_start_idempotent (sps : Spans) (label : String) (lvl : Option Nat)
    (mem : Int) (h : hasOwnProp sps label = true) :
    timeStartTraceImpl sps label lvl mem = sps ∧
    (∀ (sps' : Spans) (lab : String) (l1 l2 : Option Nat) (m : Int),
      timeStartTraceImpl sps' lab l1 m = timeStartTraceImpl sps' lab l2 m) ∧
    (∀ (ts : Timers) (K : String) (m : Int) (st : StartTime),
      (List.lookup K (timeStartAt ts K m st)).map Timer.startTime = some (some st)) ∧
    getPersistedLabel "x" 1 ≠ getPersistedLabel "x" 3 := by
  refine ⟨?_, ?_, ?_, by decide⟩
  · simp [timeStartTraceImpl, h]
  · intro sps' lab l1 l2 m
    rfl
  · intro ts K m st
    rw [lookup_timeStartAt_self]
    rfl

/-- Claim C10 witness: the idempotence facts evaluated at a concrete span
registry already holding a span for "x". -/
theorem c10_trace_start_idempotent_witness :
    hasOwnProp [("x", (⟨"x", [], false⟩ : SpanData))] "x" = true ∧
    (timeStartTraceImpl [("x", (⟨"x", [], false⟩ : SpanData))] "x" none 0 =
        [("x", (⟨"x", [], false⟩ : SpanData))] ∧
      (∀ (sps' : Spans) (lab : String) (l1 l2 : Option Nat) (m : Int),
        timeStartTraceImpl sps' lab l1 m = timeStartTraceImpl sps' lab l2 m) ∧
      (∀ (ts : Timers) (K : String) (m : Int) (st : StartTime),
        (List.lookup K (timeStartAt ts K m st)).map Timer.startTime = some (some st)) ∧
      getPersistedLabel "x" 1 ≠ getPersistedLabel "x" 3) :=
  ⟨rfl, c10_trace_start_idempotent [("x", ⟨"x", [], false⟩)] "x" none 0 rfl⟩

end RollupTimers
